import Mathlib

/-!
# Verification of the `toolkit` repository's file-collection logic

Shallow embedding of the pattern-matching, file-filtering, extractor-dispatch,
collection-store and query-merge logic of `tools/search/search.py` and
`tools/mdscraper/mdscraper.py`.

Python strings are modelled as `String` (sequences of code points, `String.data`);
paths handed to `os.walk`/`pathlib` are modelled as lists of path segments
(`List String`), which matches POSIX path components.  `fnmatch.fnmatch` is
modelled after CPython's `fnmatch.translate` on POSIX (where `os.path.normcase`
is the identity): `*` matches any sequence of characters (including `/`), `?`
matches exactly one character, `[...]`/`[!...]` are character classes with
ranges, an unterminated `[` is a literal, and the match is anchored at both
ends.
-/

/-! ## Python `fnmatch` glob matching -/

/-- A token of a translated glob pattern: wildcard star, single-character
wildcard, a literal character, or a character class (its raw contents,
including a leading `!` for negation). -/
inductive GlobTok where
  | star : GlobTok
  | qmark : GlobTok
  | lit : Char → GlobTok
  | cls : List Char → GlobTok
deriving DecidableEq

/-- Position of the `]` closing a character class, mirroring CPython's scan in
`fnmatch.translate`: an optional leading `!` and a leading `]` are part of the
class body; `none` when the class is unterminated. -/
def findClose (ps : List Char) : Option Nat :=
  let j0 : Nat := if ps.head? = some '!' then 1 else 0
  let j1 : Nat := if ps.get? j0 = some ']' then j0 + 1 else j0
  match (ps.drop j1).findIdx? (· = ']') with
  | some k => some (j1 + k)
  | none => none

/-- Translate a glob pattern into tokens, mirroring `fnmatch.translate`.
The `fuel` argument only bounds recursion depth (each step consumes at least
one character, so `pat.length` fuel always suffices; see `parsePattern`). -/
def parsePatternF : Nat → List Char → List GlobTok
  | 0, _ => []
  | _, [] => []
  | fuel + 1, '*' :: ps => .star :: parsePatternF fuel ps
  | fuel + 1, '?' :: ps => .qmark :: parsePatternF fuel ps
  | fuel + 1, '[' :: ps =>
    match findClose ps with
    | some j => .cls (ps.take j) :: parsePatternF fuel (ps.drop (j + 1))
    | none => .lit '[' :: parsePatternF fuel ps
  | fuel + 1, c :: ps => .lit c :: parsePatternF fuel ps

/-- Translate a glob pattern into tokens (CPython `fnmatch.translate`). -/
def parsePattern (pat : List Char) : List GlobTok :=
  parsePatternF pat.length pat

/-- Membership of a character in a (non-negated) character-class body,
with `x-y` code-point ranges; a `-` at the start or end is a literal. -/
def memClass (c : Char) : List Char → Bool
  | x :: '-' :: y :: rest => (decide (x ≤ c) && decide (c ≤ y)) || memClass c rest
  | x :: rest => (c = x) || memClass c rest
  | [] => false

/-- Character-class matching: a leading `!` negates the class. -/
def classMatches (c : Char) (stuff : List Char) : Bool :=
  match stuff with
  | '!' :: rest => !(memClass c rest)
  | _ => memClass c stuff

/-- Match a character sequence against a token sequence (anchored, as
`fnmatch.translate` wraps the regex in `(?s:...)\Z`).  `.*` is matched by
trying every suffix of the remaining input. -/
def matchToks : List Char → List GlobTok → Bool
  | name, [] => name.isEmpty
  | name, .star :: ts => name.tails.any fun n' => matchToks n' ts
  | [], _ :: _ => false
  | _ :: n', .qmark :: ts => matchToks n' ts
  | c :: n', .lit x :: ts => (c = x) && matchToks n' ts
  | c :: n', .cls stuff :: ts => classMatches c stuff && matchToks n' ts

/-- `fnmatch.fnmatch(name, pat)` on POSIX (`normcase` is the identity). -/
def fnmatch (name pat : String) : Bool :=
  matchToks name.data (parsePattern pat.data)

/-! ## Python string helpers -/

/-- `s.split(sep)` for a single-character separator, Python semantics:
empty fields are kept and the result is never empty. -/
def splitChar (sep : Char) : List Char → List (List Char)
  | [] => [[]]
  | c :: rest =>
    if c = sep then [] :: splitChar sep rest
    else
      match splitChar sep rest with
      | s :: ss => (c :: s) :: ss
      | [] => [[c]]

/-- `os.path.basename` on POSIX: everything after the last `/`. -/
def basename (s : String) : String :=
  ⟨(splitChar '/' s.data).getLastD []⟩

/-- `s.startswith(pre)`. -/
def pyStartsWith (s pre : String) : Bool :=
  pre.data.isPrefixOf s.data

/-- `s.endswith(suf)`. -/
def pyEndsWith (s suf : String) : Bool :=
  suf.data.isSuffixOf s.data

/-- `'/' in s` (single-character containment). -/
def pyContainsChar (s : String) (c : Char) : Bool :=
  s.data.contains c

/-- `s[n:]` for a non-negative index. -/
def pyDrop (s : String) (n : Nat) : String :=
  ⟨s.data.drop n⟩

/-- `sep.join(parts)` for `sep = "/"`. -/
def joinSlash (parts : List String) : String :=
  String.intercalate "/" parts

/-- `path.split('/')` at the `String` level. -/
def splitSlash (s : String) : List String :=
  (splitChar '/' s.data).map String.mk

/-! ## `mdscraper.should_ignore` (tools/mdscraper/mdscraper.py, lines 43-79) -/

/-- `should_ignore(path, patterns)`: decide whether a relative path is ignored
under the gitignore-style pattern list.  Direct translation of the source; the
early `return True` inside the nested directory-pattern loops is expressed as
an `any` over the loop ranges (the negation-override check does not depend on
the loop variables, so continuing the loop after an override is equivalent to
conjoining its failure). -/
def should_ignore (path : String) (patterns : List String) : Bool :=
  -- Always ignore hidden files
  if pyStartsWith (basename path) "." then true
  else
    -- Check for directory patterns
    let dirBlock : Bool :=
      if pyContainsChar path '/' then
        let pathParts := splitSlash path
        (List.range pathParts.length).any fun i =>
          let partialPath := joinSlash (pathParts.take (i + 1)) ++ "/"
          patterns.any fun pattern =>
            !pyStartsWith pattern "!" && pyEndsWith pattern "/" &&
              fnmatch partialPath pattern &&
              -- Check if there is a negation pattern that overrides
              !(patterns.any fun negPattern =>
                  pyStartsWith negPattern "!" && fnmatch path (pyDrop negPattern 1))
      else false
    if dirBlock then true
    -- Check if path matches any negation pattern first
    else if patterns.any fun pattern =>
        pyStartsWith pattern "!" && fnmatch path (pyDrop pattern 1) then false
    -- Then check if it matches any regular pattern
    else patterns.any fun pattern =>
      !pyStartsWith pattern "!" && !pyEndsWith pattern "/" && fnmatch path pattern

/-- Decision procedure for non-hidden paths exactly as the specification words
it: directory-prefix rule (with negation override) first, then negation
precedence, then plain patterns, default not ignored.  Used only to compare
with `should_ignore`. -/
def should_ignore_specSide (path : String) (patterns : List String) : Bool :=
  let negationMatches :=
    patterns.any fun p => pyStartsWith p "!" && fnmatch path (pyDrop p 1)
  let dirPrefixMatches :=
    pyContainsChar path '/' &&
      (let pathParts := splitSlash path
       (List.range pathParts.length).any fun i =>
         patterns.any fun p =>
           !pyStartsWith p "!" && pyEndsWith p "/" &&
             fnmatch (joinSlash (pathParts.take (i + 1)) ++ "/") p)
  if dirPrefixMatches && !negationMatches then true
  else if negationMatches then false
  else
    patterns.any fun p =>
      !pyStartsWith p "!" && !pyEndsWith p "/" && fnmatch path p

/-! ## Python string sorting (`sorted` on path strings) -/

/-- Lexicographic code-point comparison of character sequences: Python's
`str` ordering. -/
def charListLe : List Char → List Char → Bool
  | [], _ => true
  | _ :: _, [] => false
  | a :: as, b :: bs => if a = b then charListLe as bs else decide (a < b)

/-- Python `sorted` on a list of paths, comparing the joined path strings. -/
def sortPaths (l : List (List String)) : List (List String) :=
  List.insertionSort
    (fun p q => charListLe (joinSlash p).data (joinSlash q).data = true) l

/-! ## `mdscraper.scan_directory` (tools/mdscraper/mdscraper.py, lines 82-115)

A directory listing is modelled as a sequence of named entries in `os.listdir`
order; a file entry carries whether the file decodes as UTF-8 text (the
source opens each file and skips it on `UnicodeDecodeError`). -/

/-- A directory listing: files (with a text/binary flag) and subdirectories,
in `os.listdir` order. -/
inductive MTree where
  | nil : MTree
  | file (name : String) (isText : Bool) (rest : MTree) : MTree
  | dir (name : String) (sub : MTree) (rest : MTree) : MTree
deriving DecidableEq

/-- The unsorted file collection of `scan_directory`: one pass over the
listing.  `rel_path` of a direct child is just its item name; nested calls
return their files already sorted, exactly as in the source. -/
def scanLoop (dirPath : List String) (patterns : List String) (recursive : Bool) :
    MTree → List (List String)
  | .nil => []
  | .file item isText rest =>
    (if should_ignore item patterns then []
     else if isText then [dirPath ++ [item]] else []) ++
      scanLoop dirPath patterns recursive rest
  | .dir item sub rest =>
    (if should_ignore item patterns then []
     else if recursive then
       -- check if the directory itself should be ignored
       if patterns.any fun pattern =>
           !pyStartsWith pattern "!" && pyEndsWith pattern "/" &&
             fnmatch (item ++ "/") pattern
       then []
       else sortPaths (scanLoop (dirPath ++ [item]) patterns recursive sub)
     else []) ++
      scanLoop dirPath patterns recursive rest

/-- `scan_directory(directory, patterns, recursive)`: scan a directory for
text files, filtering by ignore patterns; the result is sorted. -/
def scan_directory (dirPath : List String) (tree : MTree)
    (patterns : List String) (recursive : Bool) : List (List String) :=
  sortPaths (scanLoop dirPath patterns recursive tree)

/-! ## `search.filter_files` (tools/search/search.py, lines 137-179) -/

/-- The reserved per-collection subdirectory name (`SEARCH_DIR`). -/
def SEARCH_DIR : String := ".search"

/-- A directory tree for `os.walk`: named files and subdirectories in
`os.scandir` order. -/
inductive FTree where
  | nil : FTree
  | file (name : String) (rest : FTree) : FTree
  | dir (name : String) (sub : FTree) (rest : FTree) : FTree
deriving DecidableEq

/-- Names of the immediate subdirectories of a listing (`dirnames`). -/
def dirNames : FTree → List String
  | .nil => []
  | .file _ rest => dirNames rest
  | .dir name _ rest => name :: dirNames rest

/-- Names of the files directly in a listing (`filenames`). -/
def fileNames : FTree → List String
  | .nil => []
  | .file name rest => name :: fileNames rest
  | .dir _ _ rest => fileNames rest

/-- The entries `os.walk` yields below (not including) a directory:
`(dirpath, dirnames, filenames)`, top-down. -/
def walkAux (path : List String) : FTree → List (List String × List String × List String)
  | .nil => []
  | .file _ rest => walkAux path rest
  | .dir name sub rest =>
    ((path ++ [name], dirNames sub, fileNames sub) :: walkAux (path ++ [name]) sub) ++
      walkAux path rest

/-- `os.walk(top)` (top-down, default): the directory itself, then its
subtrees in order. -/
def walk (path : List String) (t : FTree) :
    List (List String × List String × List String) :=
  (path, dirNames t, fileNames t) :: walkAux path t

/-- The body of `filter_files`'s walk loop for one `(root, dirs, files)`
entry: skip the `.search` directory level, skip the whole level when any
exclude pattern matches one of its subdirectory names, then match each file
name against include and exclude patterns (skipping files whose path contains
a `.search` component). -/
def filterEntry (includePatterns excludePatterns : List String)
    (e : List String × List String × List String) : List (List String) :=
  let root := e.1
  let dirs := e.2.1
  let files := e.2.2
  -- Skip the .search directory
  if root.getLastD "" = SEARCH_DIR then []
  -- Check if any exclude pattern matches directories
  else if excludePatterns.any fun pattern => dirs.any fun d => fnmatch d pattern then []
  else
    files.filterMap fun filename =>
      let filePath := root ++ [filename]
      -- Skip if the file is in the .search directory
      if filePath.contains SEARCH_DIR then none
      -- Check include patterns
      else if !(includePatterns.any fun pattern => fnmatch filename pattern) then none
      -- Check exclude patterns
      else if excludePatterns.any fun pattern => fnmatch filename pattern then none
      else some filePath

/-- `filter_files(collection_dir, config)`: walk the collection tree and
return the matched file paths.  `includePatterns`/`excludePatterns` are the
values of `config["include"]["patterns"]` (default `["*"]`) and
`config["exclude"]["patterns"]` (default `[]`). -/
def filter_files (collectionDir : List String) (tree : FTree)
    (includePatterns excludePatterns : List String) : List (List String) :=
  (walk collectionDir tree).flatMap (filterEntry includePatterns excludePatterns)

/-! ## `search.get_extractor` (tools/search/search.py, lines 182-190)

A Python `dict` preserves insertion order, so the `extractors` mapping is
modelled as an association list of `(pattern, command)` pairs in insertion
order. -/

/-- `get_extractor(filename, config)`: the command of the first extractor
pattern (in insertion order) whose glob matches the filename. -/
def get_extractor (filename : String) (extractors : List (String × String)) :
    Option String :=
  (extractors.find? fun pc => fnmatch filename pc.1).map Prod.snd

/-! ## `search.extract_metadata` (tools/search/search.py, lines 193-213) -/

/-- A JSON value, as produced by `json.loads` (numbers kept abstract as
integers; no claim inspects them). -/
inductive JValue where
  | null : JValue
  | bool (b : Bool) : JValue
  | num (n : Int) : JValue
  | str (s : String) : JValue
  | arr (elems : List JValue) : JValue
  | obj (fields : List (String × JValue)) : JValue

/-- `s.replace(pat, repl)` for a non-empty pattern `p0 :: prest`:
left-to-right, non-overlapping.  The `fuel` argument only bounds recursion
depth (each step consumes at least one character, so the input length always
suffices; see `pyReplace`). -/
def replaceCore (p0 : Char) (prest repl : List Char) : Nat → List Char → List Char
  | 0, s => s
  | _, [] => []
  | fuel + 1, c :: rest =>
    if (p0 :: prest).isPrefixOf (c :: rest) then
      repl ++ replaceCore p0 prest repl fuel (rest.drop prest.length)
    else c :: replaceCore p0 prest repl fuel rest

/-- `s.replace("", repl)`: Python inserts the replacement before every
character and at the end. -/
def replaceEmpty (repl : List Char) : List Char → List Char
  | [] => repl
  | c :: rest => repl ++ c :: replaceEmpty repl rest

/-- Python `s.replace(pat, repl)`. -/
def pyReplace (s pat repl : String) : String :=
  match pat.data with
  | [] => ⟨replaceEmpty repl.data s.data⟩
  | p0 :: prest => ⟨replaceCore p0 prest repl.data s.data.length s.data⟩

/-- Outcome of `subprocess.run(cmd, shell=True, capture_output=True,
text=True)`: the exit status and captured stdout.  The shell itself is an
external collaborator, so it enters the model as a function from command
strings to outcomes. -/
structure ShellResult where
  exitCode : Int
  stdout : String

/-- `extract_metadata(file_path, extractor_cmd)`: substitute the `{input}`
placeholder, run the command through the shell, and parse stdout as JSON.
`check=True` raises `CalledProcessError` on a non-zero exit, which the source
catches and converts to an empty metadata dict; an unparseable stdout
(`json.JSONDecodeError`, modelled as `loads = none`) falls back to a basic
title/content record.  `loads` models `json.loads` (external library). -/
def extract_metadata (shell : String → ShellResult) (loads : String → Option JValue)
    (file_path extractor_cmd : String) : JValue :=
  -- Replace {input} with the file path
  let cmd := pyReplace extractor_cmd "{input}" file_path
  let result := shell cmd
  if result.exitCode ≠ 0 then
    -- CalledProcessError: warning on stderr, empty metadata
    .obj []
  else
    match loads result.stdout with
    | some parsed => parsed
    | none =>
      -- If parsing fails, create basic metadata with content
      .obj [("title", .str (basename file_path)), ("content", .str result.stdout)]

/-! ## `search.perform_search` (tools/search/search.py, lines 371-460) -/

/-- One hit as the external Tantivy index returns it for a query: the raw
score, the stored `title`/`path`/`absolute_path` fields (empty string when
absent, as `get_first` falls through), and the tag list recovered from the
document's embedded metadata JSON. -/
structure RawHit where
  score : Rat
  title : String
  path : String
  absolutePath : String
  tags : List String
deriving DecidableEq

/-- A `SearchResult` record as assembled by `perform_search`. -/
structure SearchResult where
  title : String
  path : String
  absolute_path : String
  tags : List String
  score : Rat
  collection : String
  collection_path : String
deriving DecidableEq

/-- A collection as seen by the query orchestrator: its directory and the
external index's answer to `searcher.search(query, limit)`.  `none` models a
missing/unopenable index (`meta.json` absent, or an exception caught by the
per-collection handler): the collection is skipped with a warning. -/
structure QCollection where
  dir : String
  search : String → Nat → Option (List RawHit)

/-- Python `str.lower` (code-point-wise, as used for tag comparison). -/
def pyLower (s : String) : String :=
  ⟨s.data.map Char.toLower⟩

/-- The `SearchResult` record `perform_search` assembles for a single hit
(an empty stored title falls back to the basename of the stored path). -/
def hitToResult (coll : QCollection) (hit : RawHit) : SearchResult :=
  { title := if hit.title ≠ "" then hit.title else basename hit.path
    path := hit.path
    absolute_path := hit.absolutePath
    tags := hit.tags
    score := hit.score * 100
    collection := basename coll.dir
    collection_path := coll.dir }

/-- The results one collection contributes to `perform_search`: nothing when
its index is missing or fails to open, otherwise its hits (minus those
dropped by the tag filter; Python truthiness: a `None` or empty tag filter
disables it). -/
def collectionResults (query_string : String) (tag_filter : Option String)
    (limit : Nat) (coll : QCollection) : List SearchResult :=
  match coll.search query_string limit with
  | none => []
  | some hits =>
    hits.filterMap fun hit =>
      -- Skip documents that don't match the tag filter
      if (match tag_filter with
          | some tf =>
            tf ≠ "" && !((hit.tags.map pyLower).contains (pyLower tf))
          | none => false) then none
      else some (hitToResult coll hit)

/-- `perform_search(query_string, collections, tag_filter, limit)`:
concatenate the per-collection results, sort by descending score (Python's
stable `sort` with `reverse=True`), and truncate to `limit`. -/
def perform_search (query_string : String) (collections : List QCollection)
    (tag_filter : Option String) (limit : Nat) : List SearchResult :=
  let results := collections.flatMap (collectionResults query_string tag_filter limit)
  -- Sort results by score (highest first), then truncate
  (List.insertionSort (fun a b => b.score ≤ a.score) results).take limit

/-! ## Collection store (tools/search/search.py, lines 69-134 and 463-514)

The filesystem is modelled as the set of existing directories plus the
existing `config.toml` files with their parsed contents (TOML serialization
by the external `toml` library is modelled as the identity on parsed
configurations).  Paths are lists of segments. -/

/-- A collection configuration, the shape of `DEFAULT_CONFIG`. -/
structure Config where
  name : String
  includePatterns : List String
  excludePatterns : List String
  extractors : List (String × String)
  outputFormat : String
  outputDirectory : String
deriving DecidableEq

/-- `DEFAULT_EXTRACTORS`. -/
def DEFAULT_EXTRACTORS : List (String × String) :=
  [("*.md", "text-extractor {input}"),
   ("*.txt", "text-extractor {input}"),
   ("*.pdf", "pdf-extractor {input}"),
   ("*.docx", "docx-extractor {input}")]

/-- `DEFAULT_CONFIG`. -/
def DEFAULT_CONFIG : Config :=
  { name := "Default Collection"
    includePatterns := ["*.pdf", "*.md", "*.txt", "*.docx"]
    excludePatterns := ["*~", "*.bak", "*.tmp", ".git/*", ".search/*"]
    extractors := DEFAULT_EXTRACTORS
    outputFormat := "json"
    outputDirectory := "cache" }

/-- `CONFIG_FILE` relative to a collection root: `.search/config.toml`. -/
def CONFIG_REL : List String := [SEARCH_DIR, "config.toml"]

/-- Filesystem state: existing directories, and existing configuration files
(path of the `config.toml` file, parsed contents). -/
structure FS where
  dirs : List (List String)
  configs : List (List String × Config)
deriving DecidableEq

/-- `os.path.isdir`. -/
def FS.isDir (fs : FS) (p : List String) : Bool :=
  fs.dirs.contains p

/-- The parsed configuration file at path `p`, if it exists. -/
def FS.configAt (fs : FS) (p : List String) : Option Config :=
  (fs.configs.find? fun e => e.1 = p).map Prod.snd

/-- `ensure_dir`: `mkdir -p`. -/
def FS.ensureDir (fs : FS) (p : List String) : FS :=
  if fs.dirs.contains p then fs else { fs with dirs := fs.dirs ++ [p] }

/-- `load_config(collection_dir)`: parse `.search/config.toml`; `none` models
the empty dict returned on `FileNotFoundError`. -/
def load_config (fs : FS) (collectionDir : List String) : Option Config :=
  fs.configAt (collectionDir ++ CONFIG_REL)

/-- `save_config(collection_dir, config)`: ensure the `.search` directory
exists and write the configuration (overwriting any previous file). -/
def save_config (fs : FS) (collectionDir : List String) (config : Config) : FS :=
  let fs1 := fs.ensureDir (collectionDir ++ [SEARCH_DIR])
  let path := collectionDir ++ CONFIG_REL
  if fs1.configs.any fun e => e.1 = path then
    { fs1 with configs := fs1.configs.map fun e => if e.1 = path then (path, config) else e }
  else
    { fs1 with configs := fs1.configs ++ [(path, config)] }

/-- Python `str.strip()` (leading and trailing whitespace removed). -/
def pyStrip (s : String) : String :=
  ⟨((s.data.dropWhile Char.isWhitespace).reverse.dropWhile Char.isWhitespace).reverse⟩

/-- `s.split(sep, 1)` when `sep` occurs in `s`: the parts before and after
the first occurrence; `none` when `sep` does not occur (`"=" in extractor`
is false). -/
def pySplitOnce (s : String) (sep : Char) : Option (String × String) :=
  match s.data.findIdx? (· = sep) with
  | some i => some (⟨s.data.take i⟩, ⟨s.data.drop (i + 1)⟩)
  | none => none

/-- Python dict assignment `d[k] = v` on an insertion-ordered association
list: update in place when the key exists, append otherwise. -/
def dictSet (d : List (String × String)) (k v : String) : List (String × String) :=
  if d.any fun e => e.1 = k then
    d.map fun e => if e.1 = k then (k, v) else e
  else d ++ [(k, v)]

/-- The arguments of `search init` after `argparse`: the target directory
(already resolved to an absolute path), with `None` for options not given. -/
structure InitArgs where
  directory : List String
  name : Option String
  includeOpt : Option (List String)
  excludeOpt : Option (List String)
  extractOpt : Option (List String)
  force : Bool

/-- The configuration `cmd_init` builds from `DEFAULT_CONFIG` and the
command-line arguments.  Option handling follows Python truthiness
(`if args.name:` etc., so an empty string or empty list leaves the default
in place); extractor overrides are upserts into the default extractor map. -/
def initConfig (args : InitArgs) : Config :=
  let config := DEFAULT_CONFIG
  let config :=
    match args.name with
    | some n => if n ≠ "" then { config with name := n } else config
    | none => config
  let config :=
    match args.includeOpt with
    | some l => if l ≠ [] then { config with includePatterns := l } else config
    | none => config
  let config :=
    match args.excludeOpt with
    | some l => if l ≠ [] then { config with excludePatterns := l } else config
    | none => config
  match args.extractOpt with
  | some entries =>
    if entries ≠ [] then
      { config with
        extractors :=
          entries.foldl
            (fun acc entry =>
              match pySplitOnce entry '=' with
              | some (pattern, command) => dictSet acc (pyStrip pattern) (pyStrip command)
              | none => acc)
            config.extractors }
    else config
  | none => config

/-- `cmd_init(args)`: initialize a directory as a search collection.
Returns the process exit status and the new filesystem state.  Writing the
configuration is modelled as always succeeding. -/
def cmd_init (args : InitArgs) (fs : FS) : Int × FS :=
  let directory := args.directory
  -- Check if the directory exists
  if !fs.isDir directory then (1, fs)
  -- Check if the collection already exists (unless --force)
  else if (fs.configAt (directory ++ CONFIG_REL)).isSome && !args.force then (1, fs)
  else
    -- Create the basic configuration from DEFAULT_CONFIG and the arguments
    let config := initConfig args
    -- Create the directory structure
    let fs1 := fs.ensureDir (directory ++ [SEARCH_DIR])
    let fs2 := fs1.ensureDir (directory ++ [SEARCH_DIR, "cache"])
    let fs3 := fs2.ensureDir (directory ++ [SEARCH_DIR, "index"])
    -- Save the configuration
    (0, save_config fs3 directory config)

/-! ## `search.find_collections` (tools/search/search.py, lines 98-108) -/

/-- `find_collections(start_dir)`: `Path(start_dir).glob("**/.search")`
matches every proper descendant directory named `.search` (in the scan order
of `fs.dirs`); a match whose `config.toml` exists contributes its parent
directory. -/
def find_collections (fs : FS) (startDir : List String) : List (List String) :=
  fs.dirs.filterMap fun d =>
    if startDir.isPrefixOf d && decide (startDir.length < d.length) &&
        d.getLastD "" = SEARCH_DIR &&
        (fs.configs.any fun e => e.1 = d ++ ["config.toml"]) then
      some d.dropLast
    else none

/-! ## Concrete scenarios from the specification's testable properties -/

/-- The file-matching scenario's collection tree as `filter_files` sees it:
`document.pdf`, `notes.md`, `draft_document.pdf`, `nested/nested.txt`, and
the reserved `.search` directory holding a stray `config.bak`. -/
def scenarioSearchTree : FTree :=
  .file "document.pdf"
    (.file "notes.md"
      (.file "draft_document.pdf"
        (.dir ".search" (.file "config.bak" .nil)
          (.dir "nested" (.file "nested.txt" .nil) .nil))))

/-- The same directory contents as `mdscraper.scan_directory` sees them
(every file decodes as UTF-8 text). -/
def scenarioMdTree : MTree :=
  .file "document.pdf" true
    (.file "notes.md" true
      (.file "draft_document.pdf" true
        (.dir "nested" (.file "nested.txt" true .nil) .nil)))

/-- The scan scenario's filesystem: a collection at `root`, a nested
collection at `root/nested`, a plain directory `root/not_collection`, and a
`.search` directory without a `config.toml` under `root/empty`. -/
def scenarioScanFS : FS :=
  { dirs :=
      [["root"], ["root", ".search"], ["root", "nested"],
        ["root", "nested", ".search"], ["root", "not_collection"],
        ["root", "empty"], ["root", "empty", ".search"]]
    configs :=
      [(["root", ".search", "config.toml"], DEFAULT_CONFIG),
        (["root", "nested", ".search", "config.toml"], DEFAULT_CONFIG)] }

/-- Query-merge scenario: a collection whose index returns one hit with raw
score `0.8` (an 80% result). -/
def scenarioColl80 : QCollection :=
  ⟨"/col/a", fun _ _ => some [⟨4 / 5, "A", "a.md", "/col/a/a.md", []⟩]⟩

/-- Query-merge scenario: a collection whose index returns one hit with raw
score `0.95` (a 95% result). -/
def scenarioColl95 : QCollection :=
  ⟨"/col/b", fun _ _ => some [⟨19 / 20, "B", "b.md", "/col/b/b.md", []⟩]⟩

/-! ## Helper lemmas -/

/-- Pull a loop-independent conjunct out of a `List.any`. -/
theorem list_any_and_const {α : Type} (l : List α) (f : α → Bool) (c : Bool) :
    (l.any fun x => f x && c) = (l.any f && c) := by
  cases c <;> simp

/-! ## Claims -/

/-- C1: For every relative path whose basename starts with `.`, and for every
pattern list (including the empty list and lists containing negation
patterns), `should_ignore(path, patterns)` returns true. -/
theorem c1_hidden_always_ignored (path : String) (patterns : List String)
    (h : pyStartsWith (basename path) "." = true) :
    should_ignore path patterns = true := by
  unfold should_ignore
  simp [h]

/-- Witness for C1 at a concrete hidden path and a pattern list whose
negation patterns would otherwise match it. -/
theorem c1_hidden_always_ignored_witness :
    pyStartsWith (basename "sub/.hidden") "." = true ∧
      should_ignore "sub/.hidden" ["!.hidden", "!sub/.hidden"] = true :=
  ⟨by decide,
    c1_hidden_always_ignored "sub/.hidden" ["!.hidden", "!sub/.hidden"] (by decide)⟩

/-- C2: On paths whose basename does not start with `.`, `should_ignore`
implements exactly the claimed decision procedure (directory-prefix rule with
negation override, then negation precedence, then plain patterns, default
false); and on `["*.log", "temp/", "!important.log"]` it ignores `test.log`,
keeps `important.log`, and ignores `temp/file.txt`. -/
theorem c2_should_ignore_decision :
    (∀ (path : String) (patterns : List String),
        pyStartsWith (basename path) "." = false →
        should_ignore path patterns = should_ignore_specSide path patterns) ∧
      should_ignore "test.log" ["*.log", "temp/", "!important.log"] = true ∧
        should_ignore "important.log" ["*.log", "temp/", "!important.log"] = false ∧
          should_ignore "temp/file.txt" ["*.log", "temp/", "!important.log"] = true := by
  refine ⟨?_, by decide, by decide, by decide⟩
  intro path patterns h
  unfold should_ignore should_ignore_specSide
  simp only [h, Bool.false_eq_true, if_false]
  cases hn : patterns.any fun p => pyStartsWith p "!" && fnmatch path (pyDrop p 1) <;>
    cases hc : pyContainsChar path '/' <;>
      simp [hn, hc, list_any_and_const]

/-- Witness for C2 at a concrete non-hidden path. -/
theorem c2_should_ignore_decision_witness :
    pyStartsWith (basename "temp/file.txt") "." = false ∧
      should_ignore "temp/file.txt" ["temp/", "!keep.txt"] =
        should_ignore_specSide "temp/file.txt" ["temp/", "!keep.txt"] :=
  ⟨by decide, c2_should_ignore_decision.1 "temp/file.txt" ["temp/", "!keep.txt"] (by decide)⟩

/-- C3: `get_extractor` returns the command of the first pair in insertion
order whose pattern glob-matches the filename; `none` when no pattern matches
(in particular `image.jpg` against the pdf/md/docx map); and lookup is
first-match over insertion order, never longest-match (a leading catch-all
pattern wins over a later, more specific one). -/
theorem c3_get_extractor_first_match :
    (∀ (filename : String) (pre post : List (String × String)) (p c : String),
        (∀ q ∈ pre, fnmatch filename q.1 = false) →
        fnmatch filename p = true →
        get_extractor filename (pre ++ (p, c) :: post) = some c) ∧
      (∀ (filename : String) (extractors : List (String × String)),
          (∀ q ∈ extractors, fnmatch filename q.1 = false) →
          get_extractor filename extractors = none) ∧
        get_extractor "image.jpg"
            [("*.pdf", "pdf-extractor {input}"), ("*.md", "text-extractor {input}"),
              ("*.docx", "docx-extractor {input}")] = none ∧
          get_extractor "doc.pdf"
              [("*", "generic {input}"), ("*.pdf", "pdf-extractor {input}")] =
            some "generic {input}" := by
  refine ⟨?_, ?_, by decide, by decide⟩
  · intro filename pre post p c hpre hp
    unfold get_extractor
    induction pre with
    | nil => simp [List.find?_cons, hp]
    | cons q rest ih =>
      have hq : fnmatch filename q.1 = false := hpre q (by simp)
      simp only [List.cons_append, List.find?_cons, hq]
      exact ih fun r hr => hpre r (by simp [hr])
  · intro filename extractors hall
    unfold get_extractor
    have : extractors.find? (fun pc => fnmatch filename pc.1) = none :=
      List.find?_eq_none.mpr fun q hq => by simp [hall q hq]
    simp [this]

/-- Witness for C3: the `*.docx` entry is reached only after the three
non-matching entries before it. -/
theorem c3_get_extractor_first_match_witness :
    get_extractor "doc.docx"
        ([("*.md", "text-extractor {input}"), ("*.txt", "text-extractor {input}"),
          ("*.pdf", "pdf-extractor {input}")] ++ [("*.docx", "docx-extractor {input}")]) =
      some "docx-extractor {input}" :=
  c3_get_extractor_first_match.1 "doc.docx"
    [("*.md", "text-extractor {input}"), ("*.txt", "text-extractor {input}"),
      ("*.pdf", "pdf-extractor {input}")]
    [] "*.docx" "docx-extractor {input}" (by decide) (by decide)

/-- C4: `extract_metadata` substitutes the file path for `{input}`, runs the
command through the shell, and returns (never raises): the empty record on a
non-zero exit, the parsed value when stdout is valid JSON, and a
`{title: basename, content: stdout}` record otherwise. -/
theorem c4_extract_metadata_cases (shell : String → ShellResult)
    (loads : String → Option JValue) (file_path extractor_cmd : String) :
    ((shell (pyReplace extractor_cmd "{input}" file_path)).exitCode ≠ 0 →
        extract_metadata shell loads file_path extractor_cmd = .obj []) ∧
      ((shell (pyReplace extractor_cmd "{input}" file_path)).exitCode = 0 →
          loads (shell (pyReplace extractor_cmd "{input}" file_path)).stdout = none →
          extract_metadata shell loads file_path extractor_cmd =
            .obj [("title", .str (basename file_path)),
              ("content", .str (shell (pyReplace extractor_cmd "{input}" file_path)).stdout)]) ∧
        (∀ parsed : JValue,
          (shell (pyReplace extractor_cmd "{input}" file_path)).exitCode = 0 →
          loads (shell (pyReplace extractor_cmd "{input}" file_path)).stdout = some parsed →
          extract_metadata shell loads file_path extractor_cmd = parsed) := by
  refine ⟨?_, ?_, ?_⟩
  · intro h
    unfold extract_metadata
    simp [h]
  · intro h hj
    unfold extract_metadata
    simp [h, hj]
  · intro parsed h hj
    unfold extract_metadata
    simp [h, hj]

/-- Witness for C4: a shell in which every command fails with exit status 1,
and a shell in which the command succeeds printing non-JSON text. -/
theorem c4_extract_metadata_cases_witness :
    extract_metadata (fun _ => ⟨1, ""⟩) (fun _ => none) "a.pdf" "pdf-extractor {input}" =
        .obj [] ∧
      extract_metadata (fun _ => ⟨0, "plain text"⟩) (fun _ => none) "a.pdf"
          "pdf-extractor {input}" =
        .obj [("title", .str "a.pdf"), ("content", .str "plain text")] :=
  ⟨(c4_extract_metadata_cases (fun _ => ⟨1, ""⟩) (fun _ => none) "a.pdf"
      "pdf-extractor {input}").1 (by decide),
    by
      have := (c4_extract_metadata_cases (fun _ => ⟨0, "plain text"⟩) (fun _ => none) "a.pdf"
        "pdf-extractor {input}").2.1 (by decide) rfl
      simpa [basename] using this⟩

/-- C5 counterexample: in the search tool's matched-file computation
(`filter_files`, the function that takes include and exclude patterns), the
walk is always recursive — `nested/nested.txt` IS in the matched set of the
scenario, with no recursive mode involved. -/
theorem c5_filter_files_counterexample :
    ["collection", "nested", "nested.txt"] ∈
      filter_files ["collection"] scenarioSearchTree ["*.pdf", "*.md", "*.txt"]
        ["draft_*", "*.bak"] := by decide

/-- C5 (amended): with include patterns `["*.pdf","*.md","*.txt"]` and
exclude patterns `["draft_*","*.bak"]`, `filter_files` matches exactly
`document.pdf`, `notes.md` and `nested/nested.txt` (excluding
`draft_document.pdf`; `os.walk` is always recursive).  The recursive-mode
behaviour belongs to `mdscraper.scan_directory`, which takes a single
ignore-pattern list: with ignore patterns `["draft_*","*.bak"]` it excludes
`draft_document.pdf`, and includes `nested/nested.txt` iff recursion is
enabled. -/
theorem c5_filtering_scenario :
    filter_files ["collection"] scenarioSearchTree ["*.pdf", "*.md", "*.txt"]
        ["draft_*", "*.bak"] =
      [["collection", "document.pdf"], ["collection", "notes.md"],
        ["collection", "nested", "nested.txt"]] ∧
      scan_directory ["collection"] scenarioMdTree ["draft_*", "*.bak"] false =
          [["collection", "document.pdf"], ["collection", "notes.md"]] ∧
        scan_directory ["collection"] scenarioMdTree ["draft_*", "*.bak"] true =
          [["collection", "document.pdf"], ["collection", "nested", "nested.txt"],
            ["collection", "notes.md"]] :=
  ⟨by decide, by decide, by decide⟩


/-- C6: `perform_search` returns at most `limit` results, sorted by
descending score; every returned result comes from the concatenation of the
per-collection results; and on two collections returning hits scoring 80 and
95 the 95-score hit comes first (also under `limit = 1`, showing truncation
happens after the sort). -/
theorem c6_perform_search_merge :
    (∀ (query : String) (collections : List QCollection) (limit : Nat),
        (perform_search query collections none limit).length ≤ limit) ∧
      (∀ (query : String) (collections : List QCollection) (limit : Nat),
          (perform_search query collections none limit).Pairwise
            fun a b => b.score ≤ a.score) ∧
        (∀ (query : String) (collections : List QCollection) (limit : Nat)
            (r : SearchResult),
            r ∈ perform_search query collections none limit →
            r ∈ collections.flatMap (collectionResults query none limit)) ∧
          (perform_search "q" [scenarioColl80, scenarioColl95] none 20).map
              SearchResult.score = [95, 80] ∧
            (perform_search "q" [scenarioColl80, scenarioColl95] none 1).map
                SearchResult.score = [95] := by
  have h1 : ¬((19 / 20 * 100 : Rat) ≤ 4 / 5 * 100) := by norm_num
  refine ⟨?_, ?_, ?_, ?_, ?_⟩
  · intro query collections limit
    unfold perform_search
    simp [List.length_take]
  · intro query collections limit
    unfold perform_search
    haveI : IsTotal SearchResult (fun a b => b.score ≤ a.score) :=
      ⟨fun a b => le_total b.score a.score⟩
    haveI : IsTrans SearchResult (fun a b => b.score ≤ a.score) :=
      ⟨fun a b c h1 h2 => le_trans h2 h1⟩
    exact List.Pairwise.sublist (List.take_sublist _ _)
      (List.sorted_insertionSort _ _)
  · intro query collections limit r hr
    unfold perform_search at hr
    exact ((List.perm_insertionSort _ _).mem_iff).1 (List.mem_of_mem_take hr)
  · simp [perform_search, collectionResults, hitToResult, scenarioColl80,
      scenarioColl95, List.insertionSort, List.orderedInsert, h1]
    norm_num
  · simp [perform_search, collectionResults, hitToResult, scenarioColl80,
      scenarioColl95, List.insertionSort, List.orderedInsert, h1]
    norm_num

/-- Witness for C6's membership conjunct: the 95-score result of the merge
scenario is among the concatenated per-collection results. -/
theorem c6_perform_search_merge_witness :
    hitToResult scenarioColl95 ⟨19 / 20, "B", "b.md", "/col/b/b.md", []⟩ ∈
      [scenarioColl80, scenarioColl95].flatMap (collectionResults "q" none 20) :=
  c6_perform_search_merge.2.2.1 "q" [scenarioColl80, scenarioColl95] 20 _
    (by
      have h1 : ¬((19 / 20 * 100 : Rat) ≤ 4 / 5 * 100) := by norm_num
      simp [perform_search, collectionResults, hitToResult, scenarioColl80,
        scenarioColl95, List.insertionSort, List.orderedInsert, h1])

/-- Upserting a key into an association list and then looking it up finds the
new value, whether the key was present (in-place update) or not (append). -/
theorem find_upsert (l : List (List String × Config)) (path : List String) (c : Config) :
    ((if l.any fun e => e.1 = path then
        l.map fun e => if e.1 = path then (path, c) else e
      else l ++ [(path, c)]).find? fun e => e.1 = path) = some (path, c) := by
  induction l with
  | nil => simp
  | cons hd tl ih =>
    by_cases h : hd.1 = path
    · rw [if_pos (by simp [List.any_cons, h])]
      simp only [List.map_cons, if_pos h]
      exact List.find?_cons_of_pos _ (by simp)
    · by_cases h2 : (tl.any fun e => e.1 = path) = true
      · rw [if_pos (by simp [List.any_cons, h2])]
        simp only [List.map_cons, if_neg h]
        rw [List.find?_cons_of_neg _ (by simp [h])]
        rw [if_pos h2] at ih
        exact ih
      · rw [if_neg (by simp [List.any_cons, h, h2])]
        simp only [List.cons_append]
        rw [List.find?_cons_of_neg _ (by simp [h])]
        rw [if_neg h2] at ih
        exact ih

/-- Saving a configuration and loading it back yields that configuration. -/
theorem load_config_save_config (fs : FS) (dir : List String) (c : Config) :
    load_config (save_config fs dir c) dir = some c := by
  have hc : (save_config fs dir c).configs =
      (if fs.configs.any fun e => e.1 = dir ++ CONFIG_REL then
        fs.configs.map fun e => if e.1 = dir ++ CONFIG_REL then (dir ++ CONFIG_REL, c) else e
      else fs.configs ++ [(dir ++ CONFIG_REL, c)]) := by
    unfold save_config FS.ensureDir
    dsimp only
    split <;> split <;> rfl
  unfold load_config FS.configAt
  rw [hc, find_upsert fs.configs (dir ++ CONFIG_REL) c]
  rfl

/-- C7: when the target directory already holds a collection configuration,
`cmd_init` without `--force` exits with status 1 and leaves the filesystem
(in particular the existing configuration file) unchanged; with `--force` it
exits 0 and overwrites the configuration with the newly built one. -/
theorem c7_init_existing_collection (args : InitArgs) (fs : FS)
    (hdir : fs.isDir args.directory = true)
    (hcfg : (fs.configAt (args.directory ++ CONFIG_REL)).isSome = true) :
    (args.force = false → cmd_init args fs = (1, fs)) ∧
      (args.force = true →
        (cmd_init args fs).1 = 0 ∧
          load_config (cmd_init args fs).2 args.directory = some (initConfig args)) := by
  constructor
  · intro hf
    unfold cmd_init
    simp [hdir, hcfg, hf]
  · intro hf
    unfold cmd_init
    simp [hdir, hcfg, hf, load_config_save_config]

/-- Witness for C7 (`--force` branch) on a concrete one-directory filesystem
that already holds a configuration. -/
theorem c7_init_existing_collection_witness :
    (cmd_init ⟨["d"], some "New", none, none, none, true⟩
          ⟨[["d"]], [(["d", ".search", "config.toml"], DEFAULT_CONFIG)]⟩).1 = 0 ∧
      load_config
          (cmd_init ⟨["d"], some "New", none, none, none, true⟩
              ⟨[["d"]], [(["d", ".search", "config.toml"], DEFAULT_CONFIG)]⟩).2
          ["d"] =
        some (initConfig ⟨["d"], some "New", none, none, none, true⟩) :=
  (c7_init_existing_collection ⟨["d"], some "New", none, none, none, true⟩
      ⟨[["d"]], [(["d", ".search", "config.toml"], DEFAULT_CONFIG)]⟩
      (by decide) (by decide)).2 rfl


/-- The name `initConfig` picks when `--name X` is given with a non-empty
`X`. -/
theorem initConfig_name (args : InitArgs) (X : String)
    (hname : args.name = some X) (hX : X ≠ "") : (initConfig args).name = X := by
  obtain ⟨dir, nm, inc, exc, ext, f⟩ := args
  cases hname
  unfold initConfig
  dsimp only
  repeat' split
  all_goals simp_all

/-- `initConfig` never produces an empty include-pattern list (an empty
`--include` is falsy in Python and leaves the non-empty default). -/
theorem initConfig_include_ne_nil (args : InitArgs) :
    (initConfig args).includePatterns ≠ [] := by
  obtain ⟨dir, nm, inc, exc, ext, f⟩ := args
  unfold initConfig
  dsimp only
  repeat' split
  all_goals simp_all [DEFAULT_CONFIG]

/-- `initConfig` never produces an empty exclude-pattern list. -/
theorem initConfig_exclude_ne_nil (args : InitArgs) :
    (initConfig args).excludePatterns ≠ [] := by
  obtain ⟨dir, nm, inc, exc, ext, f⟩ := args
  unfold initConfig
  dsimp only
  repeat' split
  all_goals simp_all [DEFAULT_CONFIG]

/-- C8 counterexample: `initialize(dir, name=X)` followed by `load(dir)` does
NOT always yield a configuration named `X`: with `X = ""` (a falsy value in
Python), `cmd_init` keeps the default name, so the loaded name is
`"Default Collection"`, not `""`. -/
theorem c8_round_trip_counterexample :
    (load_config (cmd_init ⟨["d"], some "", none, none, none, false⟩ ⟨[["d"]], []⟩).2
          ["d"]).map Config.name = some "Default Collection" ∧
      (load_config (cmd_init ⟨["d"], some "", none, none, none, false⟩ ⟨[["d"]], []⟩).2
            ["d"]).map Config.name ≠ some "" := by
  refine ⟨by decide, by decide⟩

/-- C8 (amended): for every existing directory with no configuration file yet
and every NON-EMPTY name `X`, `cmd_init` with `--name X` exits 0, and loading
the collection yields a configuration whose name is `X` and whose include and
exclude pattern lists are non-empty. -/
theorem c8_init_load_round_trip (fs : FS) (args : InitArgs) (X : String)
    (hdir : fs.isDir args.directory = true)
    (hcfg : fs.configAt (args.directory ++ CONFIG_REL) = none)
    (hname : args.name = some X) (hX : X ≠ "") :
    (cmd_init args fs).1 = 0 ∧
      ∃ cfg, load_config (cmd_init args fs).2 args.directory = some cfg ∧
        cfg.name = X ∧ cfg.includePatterns ≠ [] ∧ cfg.excludePatterns ≠ [] := by
  have hinit : cmd_init args fs =
      (0, save_config
        (((fs.ensureDir (args.directory ++ [SEARCH_DIR])).ensureDir
            (args.directory ++ [SEARCH_DIR, "cache"])).ensureDir
          (args.directory ++ [SEARCH_DIR, "index"]))
        args.directory (initConfig args)) := by
    unfold cmd_init
    simp [hdir, hcfg]
  refine ⟨by rw [hinit], initConfig args, ?_, initConfig_name args X hname hX,
    initConfig_include_ne_nil args, initConfig_exclude_ne_nil args⟩
  rw [hinit]
  exact load_config_save_config _ _ _

/-- Witness for C8's amended round trip on a concrete fresh directory. -/
theorem c8_init_load_round_trip_witness :
    (cmd_init ⟨["d"], some "X", none, none, none, false⟩ ⟨[["d"]], []⟩).1 = 0 ∧
      ∃ cfg,
        load_config (cmd_init ⟨["d"], some "X", none, none, none, false⟩ ⟨[["d"]], []⟩).2
            ["d"] = some cfg ∧
          cfg.name = "X" ∧ cfg.includePatterns ≠ [] ∧ cfg.excludePatterns ≠ [] :=
  c8_init_load_round_trip ⟨[["d"]], []⟩ ⟨["d"], some "X", none, none, none, false⟩ "X"
    (by decide) (by decide) rfl (by decide)

/-- C9: on the concrete scan filesystem, `find_collections` returns exactly
the collection at `root` and the nested collection at `root/nested` (and
neither the plain directory nor the `.search` directory without a
`config.toml`); in general, a directory is reported iff it is the parent of a
proper descendant of the start directory named `.search` whose `config.toml`
exists. -/
theorem c9_find_collections_nested :
    find_collections scenarioScanFS ["root"] = [["root"], ["root", "nested"]] ∧
      ∀ (fs : FS) (startDir p : List String),
        p ∈ find_collections fs startDir ↔
          ∃ d ∈ fs.dirs,
            startDir.isPrefixOf d = true ∧ startDir.length < d.length ∧
              d.getLastD "" = SEARCH_DIR ∧
              (fs.configs.any fun e => e.1 = d ++ ["config.toml"]) = true ∧
              p = d.dropLast := by
  refine ⟨by decide, ?_⟩
  intro fs startDir p
  unfold find_collections
  rw [List.mem_filterMap]
  constructor
  · rintro ⟨d, hd, hsome⟩
    split at hsome
    · rename_i hcond
      simp only [Bool.and_eq_true, decide_eq_true_eq] at hcond
      exact ⟨d, hd, hcond.1.1.1, hcond.1.1.2, hcond.1.2, hcond.2,
        (Option.some.inj hsome).symm⟩
    · exact absurd hsome (by simp)
  · rintro ⟨d, hd, h1, h2, h3, h4, rfl⟩
    rw [List.getLastD_eq_getLast?] at h3
    exact ⟨d, hd, by simp [h1, h2, h3, h4]⟩


/-- Every element `filterEntry` emits is `root ++ [filename]` for one of the
entry's files. -/
theorem mem_filterEntry_shape {inc exc : List String}
    {e : List String × List String × List String} {x : List String}
    (h : x ∈ filterEntry inc exc e) : ∃ f ∈ e.2.2, x = e.1 ++ [f] := by
  obtain ⟨root, dirs, files⟩ := e
  unfold filterEntry at h
  simp only [] at h
  split at h
  · simp at h
  · split at h
    · simp at h
    · obtain ⟨f, hf, hsome⟩ := List.mem_filterMap.1 h
      split at hsome
      · exact absurd hsome (by simp)
      · split at hsome
        · exact absurd hsome (by simp)
        · split at hsome
          · exact absurd hsome (by simp)
          · exact ⟨f, hf, (Option.some.inj hsome).symm⟩

/-- If `d` is a subdirectory name of listing `t`, the walk below `p` over `t`
contains an entry rooted at `p ++ [d]`. -/
theorem walkAux_of_dirName (p : List String) (t : FTree) (d : String)
    (hd : d ∈ dirNames t) :
    ∃ dirs' files', (p ++ [d], dirs', files') ∈ walkAux p t := by
  induction t with
  | nil => simp [dirNames] at hd
  | file name rest ih => exact ih hd
  | dir name sub rest ihs ihr =>
    rcases List.mem_cons.1 hd with rfl | hmem
    · exact ⟨dirNames sub, fileNames sub, by simp [walkAux]⟩
    · obtain ⟨ds, fs, hin⟩ := ihr hmem
      exact ⟨ds, fs, by simp [walkAux, hin]⟩

/-- If an entry of the walk below `p` has `d` among its subdirectory names,
the walk below `p` also contains an entry rooted at that entry's root plus
`d`. -/
theorem walkAux_child (p : List String) (t : FTree)
    (root dirs files : List String) (d : String)
    (hmem : (root, dirs, files) ∈ walkAux p t) (hd : d ∈ dirs) :
    ∃ dirs' files', (root ++ [d], dirs', files') ∈ walkAux p t := by
  induction t generalizing p with
  | nil => simp [walkAux] at hmem
  | file name rest ih => exact ih p hmem
  | dir name sub rest ihs ihr =>
    have hmem' : (root, dirs, files) ∈
        ((p ++ [name], dirNames sub, fileNames sub) :: walkAux (p ++ [name]) sub) ++
          walkAux p rest := hmem
    rcases List.mem_append.1 hmem' with hl | hrest
    · rcases List.mem_cons.1 hl with heq | hsub
      · have h1 : root = p ++ [name] := congrArg Prod.fst heq
        have h2 : dirs = dirNames sub := congrArg (fun x => x.2.1) heq
        obtain ⟨ds, fs, hin⟩ := walkAux_of_dirName (p ++ [name]) sub d (h2 ▸ hd)
        refine ⟨ds, fs, ?_⟩
        show (root ++ [d], ds, fs) ∈
          ((p ++ [name], dirNames sub, fileNames sub) :: walkAux (p ++ [name]) sub) ++
            walkAux p rest
        exact List.mem_append_left _ (List.mem_cons_of_mem _ (by rw [h1]; exact hin))
      · obtain ⟨ds, fs, hin⟩ := ihs (p ++ [name]) hsub
        refine ⟨ds, fs, ?_⟩
        show (root ++ [d], ds, fs) ∈
          ((p ++ [name], dirNames sub, fileNames sub) :: walkAux (p ++ [name]) sub) ++
            walkAux p rest
        exact List.mem_append_left _ (List.mem_cons_of_mem _ hin)
    · obtain ⟨ds, fs, hin⟩ := ihr p hrest
      refine ⟨ds, fs, ?_⟩
      show (root ++ [d], ds, fs) ∈
        ((p ++ [name], dirNames sub, fileNames sub) :: walkAux (p ++ [name]) sub) ++
          walkAux p rest
      exact List.mem_append_right _ hin

/-- `os.walk` visits the subdirectories of every directory it visits. -/
theorem walk_child (p : List String) (t : FTree)
    (root dirs files : List String) (d : String)
    (hmem : (root, dirs, files) ∈ walk p t) (hd : d ∈ dirs) :
    ∃ dirs' files', (root ++ [d], dirs', files') ∈ walk p t := by
  rcases List.mem_cons.1 hmem with heq | haux
  · injection heq with h1 hrest'
    injection hrest' with h2 h3
    obtain ⟨ds, fs, hin⟩ := walkAux_of_dirName p t d (h2 ▸ hd)
    refine ⟨ds, fs, ?_⟩
    rw [h1]
    exact List.mem_cons_of_mem _ hin
  · obtain ⟨ds, fs, hin⟩ := walkAux_child p t root dirs files d haux hd
    exact ⟨ds, fs, List.mem_cons_of_mem _ hin⟩

/-- C10: during `filter_files`' walk, if any exclude pattern matches the name
of at least one immediate subdirectory of a visited directory, NO file lying
directly in that directory is matched (the whole level is skipped, whatever
the per-file patterns say), while the walk still visits the subdirectories;
and a file of a non-skipped directory satisfying the per-file checks is
matched.  The `Nodup` hypothesis says the walk's directory paths are
pairwise distinct, as on a real filesystem. -/
theorem c10_exclude_dir_skips_level :
    (∀ (collectionDir : List String) (tree : FTree) (inc exc : List String)
        (root dirs files : List String),
        ((walk collectionDir tree).map fun e => e.1).Nodup →
        (root, dirs, files) ∈ walk collectionDir tree →
        (exc.any fun pattern => dirs.any fun d => fnmatch d pattern) = true →
        (∀ fname : String,
            root ++ [fname] ∉ filter_files collectionDir tree inc exc) ∧
          ∀ d ∈ dirs, ∃ dirs' files',
            (root ++ [d], dirs', files') ∈ walk collectionDir tree) ∧
      ∀ (collectionDir : List String) (tree : FTree) (inc exc : List String)
          (root dirs files : List String) (fname : String),
          (root, dirs, files) ∈ walk collectionDir tree →
          root.getLastD "" ≠ SEARCH_DIR →
          (exc.any fun pattern => dirs.any fun d => fnmatch d pattern) = false →
          fname ∈ files →
          (root ++ [fname]).contains SEARCH_DIR = false →
          (inc.any fun pattern => fnmatch fname pattern) = true →
          (exc.any fun pattern => fnmatch fname pattern) = false →
          root ++ [fname] ∈ filter_files collectionDir tree inc exc := by
  constructor
  · intro cdir tree inc exc root dirs files hnodup hmem hskip
    constructor
    · intro fname hin
      obtain ⟨e, he, hx⟩ := List.mem_flatMap.1 hin
      obtain ⟨f, hf, heq⟩ := mem_filterEntry_shape hx
      have hconcat : root.concat fname = e.1.concat f := by
        simpa [List.concat_eq_append] using heq
      obtain ⟨hroot, hfname⟩ := List.concat_inj.1 hconcat
      have hee : e = (root, dirs, files) :=
        List.inj_on_of_nodup_map hnodup he hmem hroot.symm
      have hempty : filterEntry inc exc (root, dirs, files) = [] := by
        unfold filterEntry
        simp [hskip]
      rw [hee, hempty] at hx
      exact absurd hx (List.not_mem_nil _)
    · intro d hd
      exact walk_child cdir tree root dirs files d hmem hd
  · intro cdir tree inc exc root dirs files fname hmem hsearch hnoskip hf hcont hincl hexcl
    refine List.mem_flatMap.2 ⟨(root, dirs, files), hmem, ?_⟩
    have hstep : filterEntry inc exc (root, dirs, files) =
        files.filterMap (fun filename =>
          let filePath := root ++ [filename]
          if filePath.contains SEARCH_DIR then none
          else if !(inc.any fun pattern => fnmatch filename pattern) then none
          else if exc.any fun pattern => fnmatch filename pattern then none
          else some filePath) := by
      simp only [filterEntry]
      rw [if_neg hsearch, if_neg (by simp [hnoskip])]
    rw [hstep]
    refine List.mem_filterMap.2 ⟨fname, hf, ?_⟩
    simp [hincl, hexcl]
    simpa using hcont

/-- Witness for C10 on a concrete tree: the exclude pattern `bad` matches the
subdirectory `bad` of the collection root, so `keep.md` (which matches the
include pattern `*` and no exclude pattern) is not matched, yet the walk
still has an entry for the `bad` subdirectory. -/
theorem c10_exclude_dir_skips_level_witness :
    ["c", "keep.md"] ∉
        filter_files ["c"] (.file "keep.md" (.dir "bad" (.file "inner.md" .nil) .nil))
          ["*"] ["bad"] ∧
      ∃ dirs' files', (["c", "bad"], dirs', files') ∈
        walk ["c"] (.file "keep.md" (.dir "bad" (.file "inner.md" .nil) .nil)) :=
  ⟨(c10_exclude_dir_skips_level.1 ["c"]
      (.file "keep.md" (.dir "bad" (.file "inner.md" .nil) .nil)) ["*"] ["bad"]
      ["c"] ["bad"] ["keep.md"] (by decide) (by decide) (by decide)).1 "keep.md",
    (c10_exclude_dir_skips_level.1 ["c"]
      (.file "keep.md" (.dir "bad" (.file "inner.md" .nil) .nil)) ["*"] ["bad"]
      ["c"] ["bad"] ["keep.md"] (by decide) (by decide) (by decide)).2 "bad"
      (by decide)⟩
